import Mathlib

/-!
Shallow embedding of the memory/index synchronization layer of the
conversational RAG bot (src/RAG/run_astrobot.py, class ConversationalRAGBot),
together with the document-ingestion loader dispatch of its driver loop and
the chunking pipeline.  Conversation history entries are Python dicts
mapping the keys role/content to strings; the Chroma vector store is
modelled as the list of document page contents it holds, in insertion
order (Chroma.add_documents appends, never deduplicates); the pickle file
is modelled at the granularity of serialized (role, content) records.
-/

set_option maxRecDepth 100000

namespace Astrobot

/-- One entry of `conversation_history`: a dict with a `role` key
(`"HumanMessage"` or `"AIMessage"`) and a `content` key, both strings. -/
structure Msg where
  role : String
  content : String
deriving DecidableEq, Repr

/-- The combined exchange text built both in `chat` (line 157) and in
`_add_history_to_vectorstore` (line 119):
the Python f-string `Human: ...human...\nAssistant: ...ai...`. -/
def combinedText (humanContent aiContent : String) : String :=
  "Human: " ++ humanContent ++ "\nAssistant: " ++ aiContent

/-- `_add_history_to_vectorstore` (run_astrobot.py lines 100-125): walks the
history with index `i`; at a `HumanMessage` it peeks at the next entry, and
if that entry is an `AIMessage` it combines the two into one document and
skips the AI entry; a `HumanMessage` with no following `AIMessage` is
combined with empty assistant content; any other entry is skipped. -/
def addHistoryDocs : List Msg → List String
  | [] => []
  | [m] =>
    if m.role = "HumanMessage" then [combinedText m.content ""] else []
  | m :: next :: rest =>
    if m.role = "HumanMessage" then
      if next.role = "AIMessage" then
        combinedText m.content next.content :: addHistoryDocs rest
      else
        combinedText m.content "" :: addHistoryDocs (next :: rest)
    else
      addHistoryDocs (next :: rest)

/-- `_initialize_vectorstore` (run_astrobot.py lines 79-98): both branches
open the Chroma store at `chroma_persist_dir` (so `existingDocs` is whatever
the directory already holds, `[]` for a fresh directory), and then, whenever
the loaded conversation history is non-empty, `_add_history_to_vectorstore`
appends one combined document per human message of the history. -/
def initVectorstore (existingDocs : List String) (history : List Msg) :
    List String :=
  if history.isEmpty then existingDocs
  else existingDocs ++ addHistoryDocs history

/-! ### Pickle persistence model

`pickle.dump(self.conversation_history, f)` writes a stream of records; we
model the stream at the granularity of one `(role, content)` pair per
message.  A file holds either a complete stream (the dump finished) or a
truncated one (the process died mid-write); `pickle.load` on a truncated
stream raises (UnpicklingError/EOFError), which we model as `.error`. -/

/-- The serialized form of a conversation history, one record per message. -/
def serialize (h : List Msg) : List (String × String) :=
  h.map fun m => (m.role, m.content)

/-- Rebuilding the history from a complete pickle stream. -/
def deserialize (d : List (String × String)) : List Msg :=
  d.map fun p => ⟨p.1, p.2⟩

/-- On-disk content of a pickle file: a complete stream or a truncated one. -/
inductive PickleFile where
  | complete (data : List (String × String))
  | truncated (data : List (String × String))
deriving DecidableEq, Repr

/-- A file system: each path holds a pickle file, or nothing. -/
def FS : Type := String → Option PickleFile

/-- `_save_pickle` (run_astrobot.py lines 74-77) when the dump runs to
completion: `open(self.pickle_path, 'wb')` followed by a full
`pickle.dump` leaves a complete stream at the target path. -/
def savePickle (fs : FS) (path : String) (h : List Msg) : FS :=
  fun p => if p = path then some (.complete (serialize h)) else fs p

/-- `_save_pickle` interrupted after writing `step` records: `open(path,
'wb')` truncates the target immediately, so a crash mid-dump leaves only a
prefix of the new stream (the old content is already gone).  `step` at or
past the stream length means the dump finished. -/
def savePickleCrashed (h : List Msg) (step : Nat) : PickleFile :=
  if (serialize h).length ≤ step then .complete (serialize h)
  else .truncated ((serialize h).take step)

/-- `_load_pickle` (run_astrobot.py lines 66-72): returns `[]` when no file
exists at the path; otherwise `pickle.load` either rebuilds the stored
history or raises on a malformed stream. -/
def loadPickle (fs : FS) (path : String) : Except String (List Msg) :=
  match fs path with
  | none => .ok []
  | some (.complete d) => .ok (deserialize d)
  | some (.truncated _) => .error "UnpicklingError"

/-! ### The chat turn

`chat` (run_astrobot.py lines 146-163): obtains `answer` from the chain,
appends the Human then the AI message to `conversation_history`, adds the
single combined document to the vector store, then runs `_save_pickle`,
and finally returns `answer`.  There is no try/except anywhere in the
method, so an exception raised by `vectorstore.add_documents` propagates
immediately (skipping the save), and an exception raised by `_save_pickle`
propagates after the index insertion has happened.  The two fallible
collaborator calls are driven by the Booleans `indexOk` and `persistOk`. -/

/-- The mutable state `chat` touches: the in-memory history, the vector
store contents, and the pickle file at `pickle_path`. -/
structure BotState where
  history : List Msg
  index : List String
  pickleFile : Option PickleFile
deriving Repr

/-- The observable outcome of one `chat` call. -/
structure ChatResult where
  state : BotState
  indexAttempted : Bool
  persistAttempted : Bool
  raised : Option String
  returned : Option String
deriving Repr

/-- One `chat(user_input)` call, with `answer` the text produced by the
retrieval chain.  Statement order mirrors lines 149-163 of
run_astrobot.py; a failing step raises and the remaining statements do
not run. -/
def chatRun (indexOk persistOk : Bool) (userInput answer : String)
    (st : BotState) : ChatResult :=
  let hist1 := st.history ++ [⟨"HumanMessage", userInput⟩, ⟨"AIMessage", answer⟩]
  if !indexOk then
    { state := { st with history := hist1 }
      indexAttempted := true
      persistAttempted := false
      raised := some "vectorstore.add_documents failed"
      returned := none }
  else
    let st2 : BotState :=
      { st with history := hist1, index := st.index ++ [combinedText userInput answer] }
    if !persistOk then
      { state := st2
        indexAttempted := true
        persistAttempted := true
        raised := some "_save_pickle failed"
        returned := none }
    else
      { state := { st2 with pickleFile := some (.complete (serialize hist1)) }
        indexAttempted := true
        persistAttempted := true
        raised := none
        returned := some answer }

/-- A fully successful chat turn, as used by the interactive loop. -/
def chatStep (userInput answer : String) (st : BotState) : BotState :=
  (chatRun true true userInput answer st).state

/-- Running a sequence of successful turns; each pair is the user input and
the chain's answer for that turn. -/
def runChats : List (String × String) → BotState → BotState
  | [], st => st
  | (u, a) :: rest, st => runChats rest (chatStep u a st)

/-- The fresh state: no pickle file on disk (so `_load_pickle` gives `[]`)
and an empty Chroma directory (so `_initialize_vectorstore` adds nothing). -/
def freshState : BotState :=
  { history := [], index := initVectorstore [] [], pickleFile := none }

/-- The character positions of a combined document occupied by the leading
marker text, the human content, and the assistant marker; everything after
them is the assistant portion. -/
def assistantPart (humanContent doc : String) : List Char :=
  doc.data.drop
    ("Human: ".data.length + humanContent.data.length + "\nAssistant: ".data.length)

/-! ### Document ingestion: loader dispatch and chunking

Driver loop, run_astrobot.py lines 192-225: the `add a document` command
picks a loader from the path's extension, with an explicit
`print` + TextLoader fallback for anything unrecognized, and wraps the
whole load-split-add sequence in a try/except that reports errors and
continues the loop. -/

/-- The three loader classes the dispatch can pick. -/
inductive LoaderKind where
  | textLoader
  | pyPDFLoader
  | docx2txtLoader
deriving DecidableEq, Repr

/-- The loader chosen for a path, and whether the unsupported-type warning
was printed on the way. -/
structure LoaderChoice where
  loader : LoaderKind
  warned : Bool
deriving DecidableEq, Repr

/-- Python's `str.endswith`, on the string's character sequence. -/
def endsWithExt (docPath ext : String) : Bool :=
  ext.data.isSuffixOf docPath.data

/-- Loader dispatch (run_astrobot.py lines 196-205): `.txt`, `.pdf` and
`.docx` select their loaders; anything else prints
`Unsupported file type. Attempting TextLoader...` and falls back to
`TextLoader`. -/
def selectLoader (docPath : String) : LoaderChoice :=
  if endsWithExt docPath ".txt" then ⟨.textLoader, false⟩
  else if endsWithExt docPath ".pdf" then ⟨.pyPDFLoader, false⟩
  else if endsWithExt docPath ".docx" then ⟨.docx2txtLoader, false⟩
  else ⟨.textLoader, true⟩

/-- How one ingestion command ends: chunks added, or the caught exception
reported by the except branch (line 222-223); the loop continues either
way. -/
inductive IngestOutcome where
  | added (numChunks : Nat)
  | errorReported (msg : String)
deriving DecidableEq, Repr

/-- The whole `add a document` branch: pick the loader, then run
load + split + add (abstracted as `loadAndSplit`, which may raise); the
surrounding try/except converts any raise into a reported error. -/
def ingestCommand (docPath : String)
    (loadAndSplit : LoaderKind → Except String (List String)) : IngestOutcome :=
  match loadAndSplit (selectLoader docPath).loader with
  | .ok chunks => .added chunks.length
  | .error e => .errorReported ("Error loading document: " ++ e)

/-! ### ChunkingPipeline -/

/-- Modelled from the spec: the splitter implementation behind
`RecursiveCharacterTextSplitter(chunk_size=500, chunk_overlap=50)`
(run_astrobot.py lines 211-214 and create_RAG_astrobot.py line 63) is not
part of this repository's sources — only its invocation is.  Following the
contract of §4.1, in its hard-cut form: each chunk except possibly the
last is exactly `maxSize` characters, and each next chunk starts
`maxSize - overlap` characters after the previous one, so consecutive
chunks share exactly `overlap` characters.  The document is a sequence of
characters, here any `List α`; the fuel argument bounds the recursion and
is sufficient whenever it is at least the document length. -/
def splitAux {α : Type} : Nat → Nat → Nat → List α → List (List α)
  | 0, _, _, s => [s]
  | fuel + 1, maxSize, overlap, s =>
    if s.length ≤ maxSize then [s]
    else s.take maxSize :: splitAux fuel maxSize overlap (s.drop (maxSize - overlap))

/-- Modelled from the spec: `split(document, maxSize, overlap)` of §4.1. -/
def splitDocument {α : Type} (maxSize overlap : Nat) (s : List α) :
    List (List α) :=
  splitAux s.length maxSize overlap s

/-- The overlap relation between consecutive chunks: the last `overlap`
characters of one chunk are exactly the first `overlap` characters of the
next, and the next chunk is long enough for that shared run to have the
full `overlap` length. -/
def SharesOverlap {α : Type} (overlap : Nat) (c1 c2 : List α) : Prop :=
  c1.drop (c1.length - overlap) = c2.take overlap ∧ overlap ≤ c2.length

/-! ## Theorems -/

/-- Unpickling a completely dumped history rebuilds it message for
message. -/
theorem deserialize_serialize (h : List Msg) :
    deserialize (serialize h) = h := by
  induction h with
  | nil => rfl
  | cons m rest ih =>
    show Msg.mk m.role m.content :: deserialize (serialize rest) = m :: rest
    rw [ih]

/-- C5: for every file system, path and conversation history `h`, loading
immediately after persisting returns exactly `h`: `_load_pickle` after
`_save_pickle` reproduces the history, order and role/content of every
message included. -/
theorem load_after_save_roundtrip (fs : FS) (path : String) (h : List Msg) :
    loadPickle (savePickle fs path h) path = .ok h := by
  have hat : savePickle fs path h path = some (.complete (serialize h)) := by
    simp [savePickle]
  simp [loadPickle, hat, deserialize_serialize]

/-- C6: `_load_pickle` returns the empty history when no file exists at the
pickle path, and surfaces the unpickling error when the file at the path is
malformed, instead of silently returning an empty history. -/
theorem load_missing_empty_malformed_error (fs : FS) (path : String) :
    (fs path = none → loadPickle fs path = .ok []) ∧
    (∀ d, fs path = some (.truncated d) →
      loadPickle fs path = .error "UnpicklingError") := by
  constructor
  · intro h; simp [loadPickle, h]
  · intro d h; simp [loadPickle, h]

/-- Witness for C6 at a missing file and at a malformed file. -/
theorem load_missing_empty_malformed_error_witness :
    loadPickle (fun _ => none) "conversation_memory.pkl" = .ok [] ∧
    loadPickle (fun _ => some (.truncated [("HumanMessage", "hi")]))
      "conversation_memory.pkl" = .error "UnpicklingError" :=
  ⟨(load_missing_empty_malformed_error (fun _ => none)
      "conversation_memory.pkl").1 rfl,
   (load_missing_empty_malformed_error
      (fun _ => some (.truncated [("HumanMessage", "hi")]))
      "conversation_memory.pkl").2 [("HumanMessage", "hi")] rfl⟩

/-- C2 fails on the code: `_save_pickle` opens the target itself with mode
`wb` (truncating it at once) and writes in place — there is no temporary
file and no atomic replace.  A crash after zero records of the new dump
leaves an empty truncated file that is neither the old complete version
nor the new complete version. -/
theorem save_not_atomic_counterexample :
    savePickleCrashed [⟨"HumanMessage", "hello"⟩, ⟨"AIMessage", "hi there"⟩] 0
        ≠ .complete (serialize [⟨"HumanMessage", "hello"⟩]) ∧
    savePickleCrashed [⟨"HumanMessage", "hello"⟩, ⟨"AIMessage", "hi there"⟩] 0
        ≠ .complete
            (serialize [⟨"HumanMessage", "hello"⟩, ⟨"AIMessage", "hi there"⟩]) := by
  constructor <;> decide

/-- C2 amended: `_save_pickle` writes directly into the target file, so a
failure after `step` records of the dump (for any `step` short of the full
stream) leaves a truncated partial stream on disk — in particular the file
is never a complete version of any history, old or new. -/
theorem save_crash_leaves_truncated (h : List Msg) (step : Nat)
    (hs : step < (serialize h).length) :
    savePickleCrashed h step = .truncated ((serialize h).take step) ∧
    ∀ d, savePickleCrashed h step ≠ .complete d := by
  have hnot : ¬ (serialize h).length ≤ step := Nat.not_le.mpr hs
  refine ⟨by simp [savePickleCrashed, hnot], fun d => by simp [savePickleCrashed, hnot]⟩

/-- Witness for the amended C2, crashing right after the truncating open. -/
theorem save_crash_leaves_truncated_witness :
    savePickleCrashed [⟨"HumanMessage", "hi"⟩] 0
        = .truncated ((serialize [⟨"HumanMessage", "hi"⟩]).take 0) ∧
    ∀ d, savePickleCrashed [⟨"HumanMessage", "hi"⟩] 0 ≠ .complete d :=
  save_crash_leaves_truncated [⟨"HumanMessage", "hi"⟩] 0 (by decide)

/-- C1 fails on the code: after a prior run whose single completed exchange
is already in the Chroma store, restarting re-runs
`_add_history_to_vectorstore` on the loaded history, so the exchange's
combined document is in the index twice, not exactly once. -/
theorem init_reindexes_counterexample :
    ((initVectorstore
        (addHistoryDocs [⟨"HumanMessage", "hi"⟩, ⟨"AIMessage", "hello"⟩])
        [⟨"HumanMessage", "hi"⟩, ⟨"AIMessage", "hello"⟩]).count
      (combinedText "hi" "hello")) = 2 ∧
    ¬ ((initVectorstore
        (addHistoryDocs [⟨"HumanMessage", "hi"⟩, ⟨"AIMessage", "hello"⟩])
        [⟨"HumanMessage", "hi"⟩, ⟨"AIMessage", "hello"⟩]).count
      (combinedText "hi" "hello")) = 1 := by
  constructor <;> decide

/-- C1 amended: `_initialize_vectorstore` re-indexes every exchange of a
non-empty loaded history on every startup: if the store already holds
exactly the history's combined documents from a prior run, then after the
restart every document occurs twice as often as `_add_history_to_vectorstore`
produces it — each previously indexed exchange is indexed again. -/
theorem init_reindexes_history (hist : List Msg) (hne : hist ≠ []) (d : String) :
    (initVectorstore (addHistoryDocs hist) hist).count d
      = 2 * (addHistoryDocs hist).count d := by
  match hist, hne with
  | m :: rest, _ =>
    simp [initVectorstore, List.count_append, Nat.two_mul]

/-- Witness for the amended C1 at a one-exchange history. -/
theorem init_reindexes_history_witness :
    (initVectorstore
        (addHistoryDocs [⟨"HumanMessage", "hi"⟩, ⟨"AIMessage", "hello"⟩])
        [⟨"HumanMessage", "hi"⟩, ⟨"AIMessage", "hello"⟩]).count
      (combinedText "hi" "hello")
      = 2 * (addHistoryDocs
          [⟨"HumanMessage", "hi"⟩, ⟨"AIMessage", "hello"⟩]).count
            (combinedText "hi" "hello") :=
  init_reindexes_history [⟨"HumanMessage", "hi"⟩, ⟨"AIMessage", "hello"⟩]
    (by decide) (combinedText "hi" "hello")

/-- C3 fails on the code: in `chat`, `vectorstore.add_documents` runs before
`_save_pickle` with no exception handling, so when index insertion fails
the method raises immediately and persistence is never attempted — the
pickle file is untouched. -/
theorem chat_indexfail_skips_persist_counterexample :
    (chatRun false true "q" "a" freshState).persistAttempted = false ∧
    (chatRun false true "q" "a" freshState).state.pickleFile = none ∧
    (chatRun false true "q" "a" freshState).raised ≠ none := by
  refine ⟨rfl, rfl, by decide⟩

/-- C3 amended: each of the two failures propagates as an exception (it is
reported, never silently dropped), and a persistence failure comes after
the index insertion has already completed; but the two failure modes are
not independent in the other direction — when index insertion fails,
`_save_pickle` is never attempted and the pickle file keeps its previous
content. -/
theorem chat_failure_modes (u a : String) (st : BotState) :
    ((chatRun false true u a st).persistAttempted = false ∧
     (chatRun false true u a st).state.pickleFile = st.pickleFile ∧
     (chatRun false true u a st).raised = some "vectorstore.add_documents failed") ∧
    ((chatRun true false u a st).indexAttempted = true ∧
     (chatRun true false u a st).state.index = st.index ++ [combinedText u a] ∧
     (chatRun true false u a st).raised = some "_save_pickle failed") := by
  exact ⟨⟨rfl, rfl, rfl⟩, ⟨rfl, rfl, rfl⟩⟩

/-- Every run of successful turns appends, per turn, the Human message then
the Assistant message to the history and one combined document to the
index. -/
theorem runChats_spec (turns : List (String × String)) (st : BotState) :
    (runChats turns st).history
        = st.history ++ (turns.flatMap fun p =>
            [⟨"HumanMessage", p.1⟩, ⟨"AIMessage", p.2⟩]) ∧
    (runChats turns st).index
        = st.index ++ (turns.map fun p => combinedText p.1 p.2) := by
  induction turns generalizing st with
  | nil => simp [runChats]
  | cons t rest ih =>
    obtain ⟨u, a⟩ := t
    have h := ih (chatStep u a st)
    simp only [runChats] at h ⊢
    rw [h.1, h.2]
    constructor <;> simp [chatStep, chatRun]

/-- Two history entries are appended per turn of a run. -/
theorem flatMapExchange_length (turns : List (String × String)) :
    (turns.flatMap fun p =>
      [(⟨"HumanMessage", p.1⟩ : Msg), ⟨"AIMessage", p.2⟩]).length
      = 2 * turns.length := by
  induction turns with
  | nil => rfl
  | cons t rest ih =>
    simp only [List.flatMap_cons, List.length_append, List.length_cons,
      List.length_nil, List.length_singleton, ih]
    omega

/-- C4: from the fresh state (no pickle file, empty Chroma directory), `N`
successful `chat` calls leave exactly `2 * N` messages in
`conversation_history` — each call appending a Human message then an
Assistant message — and exactly `N` combined-exchange documents in the
vector store. -/
theorem fresh_run_parity (turns : List (String × String)) :
    (runChats turns freshState).history
        = turns.flatMap (fun p => [⟨"HumanMessage", p.1⟩, ⟨"AIMessage", p.2⟩]) ∧
    (runChats turns freshState).history.length = 2 * turns.length ∧
    (runChats turns freshState).index.length = turns.length := by
  obtain ⟨h1, h2⟩ := runChats_spec turns freshState
  have hhist : (runChats turns freshState).history
      = turns.flatMap fun p => [⟨"HumanMessage", p.1⟩, ⟨"AIMessage", p.2⟩] := by
    simpa [freshState, initVectorstore] using h1
  refine ⟨hhist, ?_, ?_⟩
  · rw [hhist, flatMapExchange_length]
  · have : (runChats turns freshState).index
        = turns.map fun p => combinedText p.1 p.2 := by
      simpa [freshState, initVectorstore] using h2
    simp [this]

/-- C10: the string a successful `chat` call returns is exactly the content
of the `AIMessage` it appends as the final history entry, and exactly the
assistant portion (everything after the human content and the
`Assistant: ` marker) of the single combined document it adds to the
vector store. -/
theorem chat_return_consistent (u a : String) (st : BotState) :
    ∃ ret,
      (chatRun true true u a st).returned = some ret ∧
      (chatRun true true u a st).state.history.getLast?
          = some ⟨"AIMessage", ret⟩ ∧
      (chatRun true true u a st).state.index
          = st.index ++ [combinedText u ret] ∧
      assistantPart u (combinedText u ret) = ret.data := by
  refine ⟨a, rfl, ?_, rfl, ?_⟩
  · show (st.history ++ [(⟨"HumanMessage", u⟩ : Msg), ⟨"AIMessage", a⟩]).getLast?
        = some ⟨"AIMessage", a⟩
    rw [show st.history ++ [(⟨"HumanMessage", u⟩ : Msg), ⟨"AIMessage", a⟩]
          = (st.history ++ [⟨"HumanMessage", u⟩]) ++ [⟨"AIMessage", a⟩] by
        simp]
    exact List.getLast?_concat _
  · have hdata : (combinedText u a).data
        = ("Human: ".data ++ u.data ++ "\nAssistant: ".data) ++ a.data := by
      simp [combinedText]
    rw [assistantPart, hdata]
    exact List.drop_left' (by simp; omega)

/-- The history walk emits exactly one combined document per
`HumanMessage` entry. -/
theorem addHistoryDocs_length (h : List Msg) :
    (addHistoryDocs h).length
      = (h.filter fun m => m.role == "HumanMessage").length := by
  induction h using addHistoryDocs.induct with
  | case1 => rfl
  | case2 m hm => simp [addHistoryDocs, List.filter_cons, hm]
  | case3 m hm =>
    have hb : (m.role == "HumanMessage") = false := by simpa using hm
    simp [addHistoryDocs, List.filter_cons, hm, hb]
  | case4 m next rest hm hnext ih =>
    have hb : (next.role == "HumanMessage") = false := by simp [hnext]
    simp [addHistoryDocs, List.filter_cons, hm, hnext, hb, ih]
  | case5 m next rest hm hnext ih =>
    simp [addHistoryDocs, List.filter_cons, hm, hnext, ih]
  | case6 m next rest hm ih =>
    have hb : (m.role == "HumanMessage") = false := by simpa using hm
    simp [addHistoryDocs, List.filter_cons, hm, hb, ih]

/-- C9: `_add_history_to_vectorstore` builds exactly one combined document
per `HumanMessage` of the loaded history; a `HumanMessage` immediately
followed by an `AIMessage` is combined with it (and the `AIMessage` is
consumed); a `HumanMessage` whose successor is not an `AIMessage`, or
which is the last entry, is indexed with empty assistant content; and an
`AIMessage` that is not consumed by a preceding `HumanMessage` is never
indexed on its own. -/
theorem addHistory_one_doc_per_human :
    (∀ h : List Msg, (addHistoryDocs h).length
        = (h.filter fun m => m.role == "HumanMessage").length) ∧
    (∀ (hc ac : String) (rest : List Msg),
        addHistoryDocs (⟨"HumanMessage", hc⟩ :: ⟨"AIMessage", ac⟩ :: rest)
          = combinedText hc ac :: addHistoryDocs rest) ∧
    (∀ hc : String,
        addHistoryDocs [⟨"HumanMessage", hc⟩] = [combinedText hc ""]) ∧
    (∀ (hc : String) (next : Msg) (rest : List Msg),
        next.role ≠ "AIMessage" →
        addHistoryDocs (⟨"HumanMessage", hc⟩ :: next :: rest)
          = combinedText hc "" :: addHistoryDocs (next :: rest)) ∧
    (∀ (c : String) (rest : List Msg),
        addHistoryDocs (⟨"AIMessage", c⟩ :: rest) = addHistoryDocs rest) := by
  refine ⟨addHistoryDocs_length, ?_, ?_, ?_, ?_⟩
  · intro hc ac rest; simp [addHistoryDocs]
  · intro hc; simp [addHistoryDocs]
  · intro hc next rest hnext; simp [addHistoryDocs, hnext]
  · intro c rest; cases rest <;> simp [addHistoryDocs]

/-- Witness for C9, discharging the non-`AIMessage` successor hypothesis on
a history where one human message follows another. -/
theorem addHistory_one_doc_per_human_witness :
    addHistoryDocs
        [⟨"HumanMessage", "a"⟩, ⟨"HumanMessage", "b"⟩, ⟨"AIMessage", "c"⟩]
      = combinedText "a" ""
          :: addHistoryDocs [⟨"HumanMessage", "b"⟩, ⟨"AIMessage", "c"⟩] :=
  addHistory_one_doc_per_human.2.2.2.1 "a" ⟨"HumanMessage", "b"⟩
    [⟨"AIMessage", "c"⟩] (by decide)

/-- C8: for a path with an unrecognized extension, the ingestion command
selects the plain-text loader after printing the unsupported-type warning,
and then proceeds exactly as a text-loader ingestion would: it either adds
the resulting chunks or reports the caught load error — the extension by
itself never aborts the command. -/
theorem unrecognized_extension_falls_back (docPath : String)
    (loadAndSplit : LoaderKind → Except String (List String))
    (h1 : endsWithExt docPath ".txt" = false)
    (h2 : endsWithExt docPath ".pdf" = false)
    (h3 : endsWithExt docPath ".docx" = false) :
    selectLoader docPath = ⟨.textLoader, true⟩ ∧
    (∀ chunks, loadAndSplit .textLoader = .ok chunks →
        ingestCommand docPath loadAndSplit = .added chunks.length) ∧
    (∀ e, loadAndSplit .textLoader = .error e →
        ingestCommand docPath loadAndSplit
          = .errorReported ("Error loading document: " ++ e)) := by
  have hsel : selectLoader docPath = ⟨.textLoader, true⟩ := by
    simp [selectLoader, h1, h2, h3]
  refine ⟨hsel, ?_, ?_⟩
  · intro chunks hc; simp [ingestCommand, hsel, hc]
  · intro e he; simp [ingestCommand, hsel, he]

/-- Witness for C8 on a Markdown path, both for a loader that succeeds and
for the warning-carrying loader selection itself. -/
theorem unrecognized_extension_falls_back_witness :
    selectLoader "notes.md" = ⟨.textLoader, true⟩ ∧
    ingestCommand "notes.md" (fun _ => .ok ["chunk one"]) = .added 1 :=
  ⟨(unrecognized_extension_falls_back "notes.md" (fun _ => .ok ["chunk one"])
      (by decide) (by decide) (by decide)).1,
   (unrecognized_extension_falls_back "notes.md" (fun _ => .ok ["chunk one"])
      (by decide) (by decide) (by decide)).2.1 ["chunk one"] rfl⟩

/-- The splitter always produces at least one chunk. -/
theorem splitAux_ne_nil {α : Type} (fuel maxSize overlap : Nat) (s : List α) :
    splitAux fuel maxSize overlap s ≠ [] := by
  cases fuel with
  | zero => simp [splitAux]
  | succ n => by_cases h : s.length ≤ maxSize <;> simp [splitAux, h]

/-- The first chunk of a split starts where the document starts: its first
`overlap` characters are the document's first `overlap` characters, and it
is at least `overlap` long whenever the document is. -/
theorem splitAux_head_take {α : Type} (maxSize overlap : Nat)
    (hom : overlap ≤ maxSize) (fuel : Nat) (s : List α) :
    ∃ c, (splitAux fuel maxSize overlap s).head? = some c ∧
      c.take overlap = s.take overlap ∧
      (overlap ≤ s.length → overlap ≤ c.length) := by
  cases fuel with
  | zero => exact ⟨s, rfl, rfl, fun hh => hh⟩
  | succ n =>
    by_cases h : s.length ≤ maxSize
    · exact ⟨s, by simp [splitAux, h], rfl, fun hh => hh⟩
    · refine ⟨s.take maxSize, by simp [splitAux, h], ?_, ?_⟩
      · rw [List.take_take, Nat.min_eq_left hom]
      · intro hov
        rw [List.length_take]
        exact Nat.le_min.mpr ⟨hom, hov⟩

/-- Every chunk before the last one is exactly `maxSize` long. -/
theorem splitAux_sizes {α : Type} (maxSize overlap : Nat)
    (h : overlap < maxSize) :
    ∀ (fuel : Nat) (s : List α), s.length ≤ fuel →
      ∀ c ∈ (splitAux fuel maxSize overlap s).dropLast, c.length = maxSize := by
  intro fuel
  induction fuel with
  | zero => intro s hs c hc; simp [splitAux] at hc
  | succ n ih =>
    intro s hs c hc
    by_cases hshort : s.length ≤ maxSize
    · simp [splitAux, hshort] at hc
    · rw [splitAux, if_neg hshort,
        List.dropLast_cons_of_ne_nil (splitAux_ne_nil n maxSize overlap _)] at hc
      rcases List.mem_cons.mp hc with hceq | hmem
      · rw [hceq, List.length_take]
        omega
      · refine ih (s.drop (maxSize - overlap)) ?_ c hmem
        rw [List.length_drop]
        omega

/-- Consecutive chunks of a split share exactly `overlap` characters: the
trailing `overlap` characters of each chunk are the leading `overlap`
characters of the next. -/
theorem splitAux_chain {α : Type} (maxSize overlap : Nat)
    (h : overlap < maxSize) :
    ∀ (fuel : Nat) (s : List α), s.length ≤ fuel →
      List.Chain' (SharesOverlap overlap) (splitAux fuel maxSize overlap s) := by
  intro fuel
  induction fuel with
  | zero => intro s hs; simp [splitAux]
  | succ n ih =>
    intro s hs
    by_cases hshort : s.length ≤ maxSize
    · simp [splitAux, hshort]
    · rw [splitAux, if_neg hshort, List.chain'_cons']
      refine ⟨?_, ih _ (by rw [List.length_drop]; omega)⟩
      intro y hy
      obtain ⟨c, hc, htake, hlen⟩ := splitAux_head_take maxSize overlap
        (Nat.le_of_lt h) n (s.drop (maxSize - overlap))
      rw [hc] at hy
      have hyc : y = c := by simpa using hy.symm
      subst hyc
      have hs' : overlap ≤ (s.drop (maxSize - overlap)).length := by
        rw [List.length_drop]; omega
      constructor
      · have hlt : (s.take maxSize).length = maxSize := by
          rw [List.length_take]; omega
        rw [hlt, List.drop_take,
          show maxSize - (maxSize - overlap) = overlap by omega]
        exact htake.symm
      · exact hlen hs'

/-- C7: for every document and every `0 < overlap < maxSize`, the chunking
split yields chunks that are all exactly `maxSize` long except possibly
the last, with consecutive chunks sharing exactly `overlap` characters;
and a 1200-character document at `maxSize = 500`, `overlap = 50` yields
exactly 3 chunks (of sizes 500, 500, 300), chunks 1 and 2 sharing exactly
the 50 characters at positions 450..499. -/
theorem split_sizes_and_overlap {α : Type} (maxSize overlap : Nat)
    (s : List α) (_h0 : 0 < overlap) (h1 : overlap < maxSize) :
    (∀ c ∈ (splitDocument maxSize overlap s).dropLast, c.length = maxSize) ∧
    List.Chain' (SharesOverlap overlap) (splitDocument maxSize overlap s) ∧
    ((splitDocument 500 50 (List.range 1200)).length = 3 ∧
     (splitDocument 500 50 (List.range 1200)).map List.length
        = [500, 500, 300] ∧
     ((splitDocument 500 50 (List.range 1200)).getD 0 []).drop 450
        = ((splitDocument 500 50 (List.range 1200)).getD 1 []).take 50 ∧
     (((splitDocument 500 50 (List.range 1200)).getD 1 []).take 50).length
        = 50) := by
  refine ⟨splitAux_sizes maxSize overlap h1 s.length s Nat.le.refl,
          splitAux_chain maxSize overlap h1 s.length s Nat.le.refl,
          by decide, by decide, by decide, by decide⟩

/-- Witness for C7 at the spec's scenario: a 1200-character document with
`maxSize = 500` and `overlap = 50`. -/
theorem split_sizes_and_overlap_witness :
    (0 < 50 ∧ 50 < 500) ∧
    (∀ c ∈ (splitDocument 500 50 (List.range 1200)).dropLast,
        c.length = 500) ∧
    List.Chain' (SharesOverlap 50) (splitDocument 500 50 (List.range 1200)) :=
  ⟨⟨by decide, by decide⟩,
   (split_sizes_and_overlap 500 50 (List.range 1200)
      (by decide) (by decide)).1,
   (split_sizes_and_overlap 500 50 (List.range 1200)
      (by decide) (by decide)).2.1⟩

end Astrobot
